import Mathlib

/-!
Verification of the espresso-shot firmware core (sensing-and-control loop).

The C++ sources are shallowly embedded: `float` values are modelled by `Flt`,
a rational carrier extended with the IEEE-754 special values `inf`, `ninf`
and `nan` (finite values are kept exact); `unsigned long` millisecond
timestamps are natural numbers, with 32-bit wraparound subtraction made
explicit; the fixed-size C arrays are functions out of `Fin BUFFER_SIZE`;
the C library's transcendental `log` is threaded through as an explicit
function parameter, since only its IEEE special-value behaviour matters to
the properties proved here.
-/

/-- Model of a C++ `float` value: an exact rational, positive infinity,
negative infinity, or NaN. -/
inductive Flt where
  | fin : ℚ → Flt
  | inf : Flt
  | ninf : Flt
  | nan : Flt
deriving DecidableEq

/-- IEEE `<` on floats: any comparison involving NaN is false. -/
def Flt.lt : Flt → Flt → Bool
  | Flt.fin a, Flt.fin b => a < b
  | Flt.fin _, Flt.inf => true
  | Flt.ninf, Flt.fin _ => true
  | Flt.ninf, Flt.inf => true
  | _, _ => false

/-- IEEE `>` on floats. -/
def Flt.gt (a b : Flt) : Bool := Flt.lt b a

/-- IEEE float addition on the model carrier. -/
def Flt.add : Flt → Flt → Flt
  | Flt.fin a, Flt.fin b => Flt.fin (a + b)
  | Flt.fin _, Flt.inf => Flt.inf
  | Flt.inf, Flt.fin _ => Flt.inf
  | Flt.inf, Flt.inf => Flt.inf
  | Flt.fin _, Flt.ninf => Flt.ninf
  | Flt.ninf, Flt.fin _ => Flt.ninf
  | Flt.ninf, Flt.ninf => Flt.ninf
  | Flt.inf, Flt.ninf => Flt.nan
  | Flt.ninf, Flt.inf => Flt.nan
  | Flt.nan, _ => Flt.nan
  | _, Flt.nan => Flt.nan

/-- IEEE float subtraction on the model carrier. -/
def Flt.sub : Flt → Flt → Flt
  | Flt.fin a, Flt.fin b => Flt.fin (a - b)
  | Flt.inf, Flt.fin _ => Flt.inf
  | Flt.fin _, Flt.inf => Flt.ninf
  | Flt.ninf, Flt.fin _ => Flt.ninf
  | Flt.fin _, Flt.ninf => Flt.inf
  | Flt.inf, Flt.inf => Flt.nan
  | Flt.ninf, Flt.ninf => Flt.nan
  | Flt.inf, Flt.ninf => Flt.inf
  | Flt.ninf, Flt.inf => Flt.ninf
  | Flt.nan, _ => Flt.nan
  | _, Flt.nan => Flt.nan

/-- IEEE float multiplication on the model carrier. -/
def Flt.mul : Flt → Flt → Flt
  | Flt.fin a, Flt.fin b => Flt.fin (a * b)
  | Flt.fin a, Flt.inf => if 0 < a then Flt.inf else if a < 0 then Flt.ninf else Flt.nan
  | Flt.inf, Flt.fin a => if 0 < a then Flt.inf else if a < 0 then Flt.ninf else Flt.nan
  | Flt.fin a, Flt.ninf => if 0 < a then Flt.ninf else if a < 0 then Flt.inf else Flt.nan
  | Flt.ninf, Flt.fin a => if 0 < a then Flt.ninf else if a < 0 then Flt.inf else Flt.nan
  | Flt.inf, Flt.inf => Flt.inf
  | Flt.inf, Flt.ninf => Flt.ninf
  | Flt.ninf, Flt.inf => Flt.ninf
  | Flt.ninf, Flt.ninf => Flt.inf
  | Flt.nan, _ => Flt.nan
  | _, Flt.nan => Flt.nan

/-- IEEE float division on the model carrier (the model only carries an
unsigned zero, which behaves as IEEE `+0`). -/
def Flt.div : Flt → Flt → Flt
  | Flt.fin a, Flt.fin b =>
      if b = 0 then (if 0 < a then Flt.inf else if a < 0 then Flt.ninf else Flt.nan)
      else Flt.fin (a / b)
  | Flt.fin _, Flt.inf => Flt.fin 0
  | Flt.fin _, Flt.ninf => Flt.fin 0
  | Flt.inf, Flt.fin b => if 0 ≤ b then Flt.inf else Flt.ninf
  | Flt.ninf, Flt.fin b => if 0 ≤ b then Flt.ninf else Flt.inf
  | Flt.inf, Flt.inf => Flt.nan
  | Flt.inf, Flt.ninf => Flt.nan
  | Flt.ninf, Flt.inf => Flt.nan
  | Flt.ninf, Flt.ninf => Flt.nan
  | Flt.nan, _ => Flt.nan
  | _, Flt.nan => Flt.nan

/-- The Arduino `abs` macro `((x)>0?(x):-(x))`; on NaN it yields NaN,
like `fabs` for every case relevant here. -/
def Flt.abs : Flt → Flt
  | Flt.fin a => Flt.fin |a|
  | Flt.inf => Flt.inf
  | Flt.ninf => Flt.inf
  | Flt.nan => Flt.nan

/-- The Arduino `min` macro `((a)<(b)?(a):(b))`. -/
def Flt.minA (a b : Flt) : Flt := if a.lt b then a else b

/-- The Arduino `max` macro `((a)>(b)?(a):(b))`. -/
def Flt.maxA (a b : Flt) : Flt := if a.gt b then a else b

/-- True exactly on finite (numeric) float values. -/
def Flt.isFinite : Flt → Bool
  | Flt.fin _ => true
  | _ => false

/-- C cast of a rational to an integer: truncation toward zero. -/
def ratTrunc (q : ℚ) : ℤ := if 0 ≤ q then ⌊q⌋ else ⌈q⌉

/-- 32-bit unsigned subtraction `a - b` on `unsigned long` millisecond
timestamps. -/
def usub32 (a b : ℕ) : ℕ := (a % 2 ^ 32 + 2 ^ 32 - b % 2 ^ 32) % 2 ^ 32

/-- `BUFFER_SIZE` from constants.h (`SENSING_FREQUENCY`, 100). -/
def BUFFER_SIZE : ℕ := 100

/-- `TARGET_TEMPERATURE_MIN` from constants.h. -/
def TARGET_TEMPERATURE_MIN : ℚ := 88

/-- `TARGET_TEMPERATURE_MAX` from constants.h. -/
def TARGET_TEMPERATURE_MAX : ℚ := 98

/-- Modelled from the spec: `TARGET_TEMPERATURE_INCREMENT` is referenced by
`update_machine_state` in functions.cpp but its definition is not under
src/ (src/constants.h belongs to the potentiometer variant). The spec's
discrete variant increments and decrements the target by a fixed step with
the target quantized to 0.5° steps, so the step is modelled as 0.5. -/
def TARGET_TEMPERATURE_INCREMENT : ℚ := 1 / 2

/-- Modelled from the spec: `TARGET_TEMPERATURE_DEFAULT` is referenced by
`initialize_state` in functions.cpp but its definition is not under src/.
The spec requires the stored target always to lie in
`[TARGET_TEMPERATURE_MIN, TARGET_TEMPERATURE_MAX]` and to be 0.5°-quantized;
it is modelled as the in-range quantized value 93.0. -/
def TARGET_TEMPERATURE_DEFAULT : Flt := Flt.fin 93

/-- `BASKET_SH_A` from constants.h, as the exact value of the literal. -/
def BASKET_SH_A : ℚ := 7729151421 / 10 ^ 13

/-- `BASKET_SH_B` from constants.h. -/
def BASKET_SH_B : ℚ := 2052737727 / 10 ^ 13

/-- `BASKET_SH_C` from constants.h. -/
def BASKET_SH_C : ℚ := 1427250141 / 10 ^ 16

/-- `GROUP_SH_A` from constants.h (equal to the basket coefficient there). -/
def GROUP_SH_A : ℚ := 7729151421 / 10 ^ 13

/-- `GROUP_SH_B` from constants.h. -/
def GROUP_SH_B : ℚ := 2052737727 / 10 ^ 13

/-- `GROUP_SH_C` from constants.h. -/
def GROUP_SH_C : ℚ := 1427250141 / 10 ^ 16

/-- The `MachineState` enum from data_structures.h. -/
inductive MachineState where
  | START : MachineState
  | RUNNING : MachineState
  | STOP : MachineState
  | STOPPED : MachineState
deriving DecidableEq

/-- The C enum value of a `MachineState` (enumerants are 0, 1, 2, 3). -/
def machineStateCode : MachineState → ℤ
  | MachineState.START => 0
  | MachineState.RUNNING => 1
  | MachineState.STOP => 2
  | MachineState.STOPPED => 3

/-- The `DeviceState` struct from data_structures.h. The buffer index is
typed `Fin BUFFER_SIZE` (in C it is an `int` that is invariantly kept in
`[0, BUFFER_SIZE)` by `initialize_state` and `update_resistances`). -/
structure DeviceState where
  machine_state : MachineState
  latest_buffer_index : Fin BUFFER_SIZE
  basket_resistance_buffer : Fin BUFFER_SIZE → Flt
  group_resistance_buffer : Fin BUFFER_SIZE → Flt
  current_basket_temperature : Flt
  current_group_temperature : Flt
  target_group_temperature : Flt
  start_time : ℕ
  elapsed_time : Flt
  last_resistance_measurement : ℕ
  last_display_refresh : ℕ
  last_target_change : ℕ

/-- `pow(y, 3)` as used by `resistance_to_temperature` (cubing; the IEEE
special-value behaviour for the constant exponent 3 agrees with repeated
multiplication). -/
def fltCube (y : Flt) : Flt := y.mul (y.mul y)

/-- `resistance_to_temperature` from functions.cpp. The C library `log` is
passed in explicitly as `logf`. -/
def resistance_to_temperature (logf : Flt → Flt) (resistance sh_a sh_b sh_c : Flt) : Flt :=
  let inverse_temperature_kelvin :=
    sh_a.add (((sh_b.mul (logf resistance)).add (sh_c.mul (fltCube (logf resistance)))))
  ((Flt.fin 1).div inverse_temperature_kelvin).sub (Flt.fin (27315 / 100))

/-- `basket_resistance_to_temperature` from functions.cpp. -/
def basket_resistance_to_temperature (logf : Flt → Flt) (resistance : Flt) : Flt :=
  resistance_to_temperature logf resistance (Flt.fin BASKET_SH_A) (Flt.fin BASKET_SH_B)
    (Flt.fin BASKET_SH_C)

/-- `group_resistance_to_temperature` from functions.cpp. -/
def group_resistance_to_temperature (logf : Flt → Flt) (resistance : Flt) : Flt :=
  resistance_to_temperature logf resistance (Flt.fin GROUP_SH_A) (Flt.fin GROUP_SH_B)
    (Flt.fin GROUP_SH_C)

/-- `read_resistance` from functions.cpp, with the two voltages read from
the ADC passed in as values. -/
def read_resistance (reference_voltage voltage known_resistance : Flt) : Flt :=
  let voltage_ratio := reference_voltage.div voltage
  if (voltage_ratio.abs).lt (Flt.fin (101 / 100)) then Flt.inf
  else known_resistance.div (voltage_ratio.sub (Flt.fin 1))

/-- `update_machine_state` from functions.cpp. Button reads
(`pressed()`) and the tilt switch comparison against `Button::RELEASED`
are passed in as the booleans they produce; `millis()` is passed as `now`. -/
def update_machine_state (increase_pressed decrease_pressed lever_up : Bool) (now : ℕ)
    (s : DeviceState) : DeviceState :=
  let s1 :=
    if increase_pressed then
      { s with
        target_group_temperature :=
          Flt.minA (s.target_group_temperature.add (Flt.fin TARGET_TEMPERATURE_INCREMENT))
            (Flt.fin TARGET_TEMPERATURE_MAX)
        last_target_change := now }
    else if decrease_pressed then
      { s with
        target_group_temperature :=
          Flt.maxA (s.target_group_temperature.sub (Flt.fin TARGET_TEMPERATURE_INCREMENT))
            (Flt.fin TARGET_TEMPERATURE_MIN)
        last_target_change := now }
    else s
  { s1 with
    machine_state :=
      match s1.machine_state with
      | MachineState.START => if lever_up then MachineState.RUNNING else MachineState.STOP
      | MachineState.RUNNING => if lever_up then MachineState.RUNNING else MachineState.STOP
      | MachineState.STOP => if lever_up then MachineState.START else MachineState.STOPPED
      | MachineState.STOPPED => if lever_up then MachineState.START else MachineState.STOPPED }

/-- `update_timer` from functions.cpp, with `millis()` passed as `now`. -/
def update_timer (now : ℕ) (s : DeviceState) : DeviceState :=
  let s1 :=
    if s.machine_state = MachineState.START then
      { s with start_time := now, elapsed_time := Flt.fin 0 }
    else s
  if s1.machine_state ≠ MachineState.STOPPED then
    { s1 with elapsed_time := Flt.fin ((usub32 now s1.start_time : ℚ) / 1000) }
  else s1

/-- `update_resistances` from functions.cpp, with the two freshly read
resistance samples passed in as values. -/
def update_resistances (logf : Flt → Flt) (basket_sample group_sample : Flt)
    (s : DeviceState) : DeviceState :=
  let index : Fin BUFFER_SIZE := ⟨(s.latest_buffer_index.val + 1) % BUFFER_SIZE, by
    exact Nat.mod_lt _ (by decide)⟩
  let basket_buffer := fun j => if j = index then basket_sample else s.basket_resistance_buffer j
  let group_buffer := fun j => if j = index then group_sample else s.group_resistance_buffer j
  let basket_resistance_sum :=
    (List.finRange BUFFER_SIZE).foldl (fun acc j => acc.add (basket_buffer j)) (Flt.fin 0)
  let group_resistance_sum :=
    (List.finRange BUFFER_SIZE).foldl (fun acc j => acc.add (group_buffer j)) (Flt.fin 0)
  { s with
    latest_buffer_index := index
    basket_resistance_buffer := basket_buffer
    group_resistance_buffer := group_buffer
    current_basket_temperature :=
      basket_resistance_to_temperature logf (basket_resistance_sum.div (Flt.fin BUFFER_SIZE))
    current_group_temperature :=
      group_resistance_to_temperature logf (group_resistance_sum.div (Flt.fin BUFFER_SIZE)) }

/-- The whole-buffer sum computed by the `for` loop of `update_resistances`. -/
def buffer_sum (buf : Fin BUFFER_SIZE → Flt) : Flt :=
  (List.finRange BUFFER_SIZE).foldl (fun acc j => acc.add (buf j)) (Flt.fin 0)

/-- The whole-buffer average (`..._resistance_sum / BUFFER_SIZE`) computed by
`update_resistances`. -/
def buffer_average (buf : Fin BUFFER_SIZE → Flt) : Flt :=
  (buffer_sum buf).div (Flt.fin BUFFER_SIZE)

/-- `initialize_state` from functions.cpp, with the two initial resistance
reads and `millis()` passed in as values. The C `state` object has static
storage, so the field `last_resistance_measurement` that `initialize_state`
leaves untouched is zero. -/
def initialize_state (logf : Flt → Flt) (basket_resistance group_resistance : Flt)
    (now : ℕ) : DeviceState :=
  { machine_state := MachineState.STOPPED
    latest_buffer_index := ⟨BUFFER_SIZE - 1, by decide⟩
    basket_resistance_buffer := fun _ => basket_resistance
    group_resistance_buffer := fun _ => group_resistance
    current_basket_temperature := basket_resistance_to_temperature logf basket_resistance
    current_group_temperature := group_resistance_to_temperature logf group_resistance
    target_group_temperature := TARGET_TEMPERATURE_DEFAULT
    start_time := now
    elapsed_time := Flt.fin 0
    last_resistance_measurement := 0
    last_display_refresh := now
    last_target_change := now }

/-- The fan decision bit `over_target_temperature` computed by `control_fan`
in functions.cpp: "cooling on" iff the current group temperature compares
greater than the target. -/
def over_target_temperature (s : DeviceState) : Bool :=
  s.current_group_temperature.gt s.target_group_temperature

/-- A digital output level on the fan pin. -/
inductive PinLevel where
  | low : PinLevel
  | high : PinLevel
deriving DecidableEq

/-- `control_fan` from functions.cpp: the BJT/MOSFET stage inverts the
polarity, so the pin is driven LOW to run the fan and HIGH to stop it. -/
def control_fan (s : DeviceState) : PinLevel :=
  if over_target_temperature s then PinLevel.low else PinLevel.high

/-- The `Measurement` struct from data_structures.h (`state` is the C
`long`, 4 bytes on the target platform). -/
structure Measurement where
  elapsed_time : Flt
  basket_resistance : Flt
  group_resistance : Flt
  basket_temperature : Flt
  group_temperature : Flt
  state : ℤ

/-- `write_measurement` from functions.cpp: the record built and sent over
serial each sensing tick. -/
def write_measurement (logf : Flt → Flt) (s : DeviceState) : Measurement :=
  let index := s.latest_buffer_index
  let basket_resistance := s.basket_resistance_buffer index
  let group_resistance := s.group_resistance_buffer index
  { elapsed_time := s.elapsed_time
    basket_resistance := basket_resistance
    group_resistance := group_resistance
    basket_temperature := basket_resistance_to_temperature logf basket_resistance
    group_temperature := group_resistance_to_temperature logf group_resistance
    state := machineStateCode s.machine_state }

/-- One field of the telemetry wire record: a 4-byte float or the 4-byte
integer the enum is widened to by the `long(...)` cast. -/
inductive TelemetryField where
  | f32 : Flt → TelemetryField
  | i32 : ℤ → TelemetryField
deriving DecidableEq

/-- Width in bytes of a telemetry field as laid out in the packed
`Measurement` struct sent with `Serial.write`. -/
def TelemetryField.width : TelemetryField → ℕ
  | TelemetryField.f32 _ => 4
  | TelemetryField.i32 _ => 4

/-- The ordered field layout of a `Measurement`, exactly as declared in
data_structures.h and serialized byte-for-byte by `Serial.write`. -/
def Measurement.serialized (m : Measurement) : List TelemetryField :=
  [TelemetryField.f32 m.elapsed_time,
   TelemetryField.f32 m.basket_resistance,
   TelemetryField.f32 m.group_resistance,
   TelemetryField.f32 m.basket_temperature,
   TelemetryField.f32 m.group_temperature,
   TelemetryField.i32 m.state]

/-- The Arduino `map` function: `(x - in_min) * (out_max - out_min) /
(in_max - in_min) + out_min` with C `long` arithmetic (division truncating
toward zero). -/
def arduinoMap (x in_min in_max out_min out_max : ℤ) : ℤ :=
  Int.tdiv ((x - in_min) * (out_max - out_min)) (in_max - in_min) + out_min

/-- `read_target_temperature` from src/unnamed/part_002, with the raw
`analogRead` value passed in: `map(analogRead(pin), 0, 1023, 180, 200)`,
then divided by `2.0` as a float. -/
def read_target_temperature (analog_read : ℤ) : Flt :=
  let double_target_temperature := arduinoMap analog_read 0 1023 180 200
  Flt.fin ((double_target_temperature : ℚ) / 2)

/-- The decimal digit character for `n < 10`, as produced by `printf`. -/
def digitChar (n : ℕ) : Char := Char.ofNat (48 + n)

/-- Decimal digits of a natural number, most significant first, with an
explicit fuel argument (`printf` `%d` rendering). -/
def natDigitsCore : ℕ → ℕ → List Char
  | 0, _ => []
  | fuel + 1, n =>
      if n < 10 then [digitChar n]
      else natDigitsCore fuel (n / 10) ++ [digitChar (n % 10)]

/-- `printf` `%d` rendering of a natural number. -/
def natRepr (n : ℕ) : List Char := natDigitsCore (n + 1) n

/-- `printf` `%d` rendering of a C integer (minus sign, then digits). -/
def intRepr (k : ℤ) : List Char :=
  if k < 0 then '-' :: natRepr k.natAbs else natRepr k.toNat

/-- `printf` `%3d`: right-justify in a field of width 3, space-padded. -/
def pad3 (l : List Char) : List Char := List.replicate (3 - l.length) ' ' ++ l

/-- `snprintf` into the 8-byte `FORMAT_BUFFER_SIZE` buffer: at most 7
characters are stored (plus the terminating NUL). -/
def snprintf7 (l : List Char) : String := String.mk (l.take 7)

/-- C cast of a float value to the target's 2-byte `int`
(data_structures.h documents `int` as 2 bytes on ATmega boards): defined
exactly when the value truncated toward zero fits in [-32768, 32767];
outside that the conversion is undefined behaviour, modelled as `none`. -/
def intCast16 (q : ℚ) : Option ℤ :=
  if -32768 ≤ ratTrunc q ∧ ratTrunc q ≤ 32767 then some (ratTrunc q) else none

/-- The numeric branch of `format_temperature`: `int integer =
temperature`, `int decimal = int(abs(temperature) * 10) % 10`, then
`snprintf(buffer, 8, "%3d.%1dC", integer, decimal)`. If either 2-byte
`int` cast overflows, the behaviour is undefined (`none`). -/
def format_numeric (q : ℚ) : Option String :=
  match intCast16 q, intCast16 ((|q|) * 10) with
  | some integer, some decimal10 =>
      some (snprintf7 (pad3 (intRepr integer) ++
        '.' :: natRepr (decimal10.toNat % 10) ++ ['C']))
  | _, _ => none

/-- `format_temperature` from functions.cpp. Returns `none` where the C
code runs into undefined behaviour: casting a non-finite float to `int`
(only `+∞` can reach the cast, since it compares greater than `-273.0`)
or overflowing the target's 2-byte `int` in either cast of the numeric
branch. -/
def format_temperature (temperature : Flt) : Option String :=
  if temperature.gt (Flt.fin (-273)) then
    match temperature with
    | Flt.fin q => format_numeric q
    | _ => none
  else some (snprintf7 ['-', '-', '-', ' ', 'C'])

/-- The numeric display form the spec describes: integer part
right-justified in 3 columns, one decimal digit, suffixed with the unit
letter `C` (no buffer truncation). -/
def claimed_numeric_form (q : ℚ) : String :=
  String.mk (pad3 (intRepr (ratTrunc q)) ++ '.' :: natRepr ((⌊(|q|) * 10⌋).toNat % 10) ++ ['C'])

/-- The brew state-machine transition table as the spec states it. -/
def next_machine_state (lever_up : Bool) : MachineState → MachineState
  | MachineState.START => if lever_up then MachineState.RUNNING else MachineState.STOP
  | MachineState.RUNNING => if lever_up then MachineState.RUNNING else MachineState.STOP
  | MachineState.STOP => if lever_up then MachineState.START else MachineState.STOPPED
  | MachineState.STOPPED => if lever_up then MachineState.START else MachineState.STOPPED

/-- The machine-state trace produced by feeding a sequence of lever
readings through the transition logic (one output state per input). -/
def run_trace : MachineState → List Bool → List MachineState
  | _, [] => []
  | m, lever :: rest =>
      let m2 := next_machine_state lever m
      m2 :: run_trace m2 rest

/-- `n` consecutive sensing ticks of `update_resistances`, each reading the
same two resistance samples. -/
def run_updates (logf : Flt → Flt) (basket_sample group_sample : Flt) :
    ℕ → DeviceState → DeviceState
  | 0, s => s
  | n + 1, s => run_updates logf basket_sample group_sample n
      (update_resistances logf basket_sample group_sample s)

/-- One scheduler pass over the input/timer tasks, in their registration
order: `update_machine_state` then `update_timer`. -/
def device_tick (increase_pressed decrease_pressed lever_up : Bool) (now : ℕ)
    (s : DeviceState) : DeviceState :=
  update_timer now (update_machine_state increase_pressed decrease_pressed lever_up now s)

/-- A sequence of scheduler passes; each list entry carries the two button
reads, the lever reading and the `millis()` value of one pass. -/
def run_ticks : List (Bool × Bool × Bool × ℕ) → DeviceState → DeviceState
  | [], s => s
  | (inc, dec, lever, now) :: rest, s =>
      run_ticks rest (device_tick inc dec lever now s)

/-- The target-temperature invariant of the spec: a finite, 0.5°-quantized
value within `[TARGET_TEMPERATURE_MIN, TARGET_TEMPERATURE_MAX]`. -/
def target_ok (t : Flt) : Prop :=
  ∃ k : ℤ, t = Flt.fin ((k : ℚ) / 2) ∧
    TARGET_TEMPERATURE_MIN ≤ (k : ℚ) / 2 ∧ (k : ℚ) / 2 ≤ TARGET_TEMPERATURE_MAX

/-- The index that the next `update_resistances` call will overwrite. -/
def next_index (s : DeviceState) : Fin BUFFER_SIZE :=
  ⟨(s.latest_buffer_index.val + 1) % BUFFER_SIZE, Nat.mod_lt _ (by decide)⟩

/-- A fixed reference device state used to instantiate theorems on concrete
inputs. -/
def baseState : DeviceState :=
  { machine_state := MachineState.STOPPED
    latest_buffer_index := ⟨99, by decide⟩
    basket_resistance_buffer := fun _ => Flt.fin 1
    group_resistance_buffer := fun _ => Flt.fin 1
    current_basket_temperature := Flt.fin 0
    current_group_temperature := Flt.fin 0
    target_group_temperature := Flt.fin 93
    start_time := 0
    elapsed_time := Flt.fin 0
    last_resistance_measurement := 0
    last_display_refresh := 0
    last_target_change := 0 }

theorem Flt.lt_nan_right (x : Flt) : Flt.lt x Flt.nan = false := by
  cases x <;> rfl

theorem Flt.lt_nan_left (x : Flt) : Flt.lt Flt.nan x = false := by
  cases x <;> rfl

/-- Claim C1: the fan-control decision is "cooling on" exactly when the
current group temperature compares greater than the target: on finite
values this is the numeric order, and a NaN current temperature always
resolves to "cooling off" (pin driven HIGH through the inverted stage). -/
theorem claim1_fan_decision (s : DeviceState) :
    (∀ c t : ℚ, s.current_group_temperature = Flt.fin c →
      s.target_group_temperature = Flt.fin t →
      (over_target_temperature s = true ↔ t < c)) ∧
    (s.current_group_temperature = Flt.nan →
      over_target_temperature s = false ∧ control_fan s = PinLevel.high) := by
  constructor
  · intro c t hc ht
    simp [over_target_temperature, Flt.gt, hc, ht, Flt.lt]
  · intro h
    have hover : over_target_temperature s = false := by
      simp [over_target_temperature, Flt.gt, h, Flt.lt_nan_right]
    exact ⟨hover, by simp [control_fan, hover]⟩

/-- Witness for C1: the spec's fan scenario, 95.0 over a 92.0 target turns
cooling on, swapped values and a NaN reading turn it off. -/
theorem claim1_fan_decision_witness :
    over_target_temperature
      { baseState with
        current_group_temperature := Flt.fin 95, target_group_temperature := Flt.fin 92 } = true ∧
    over_target_temperature
      { baseState with
        current_group_temperature := Flt.fin 92, target_group_temperature := Flt.fin 95 } = false ∧
    over_target_temperature
      { baseState with
        current_group_temperature := Flt.nan, target_group_temperature := Flt.fin 92 } = false := by
  refine ⟨?_, ?_, ?_⟩
  · exact ((claim1_fan_decision _).1 95 92 rfl rfl).mpr (by norm_num)
  · have h := ((claim1_fan_decision
      { baseState with
        current_group_temperature := Flt.fin 92, target_group_temperature := Flt.fin 95 }).1
        92 95 rfl rfl)
    simp only [show ¬((95 : ℚ) < 92) by norm_num, iff_false] at h
    exact Bool.not_eq_true _ ▸ Bool.of_not_eq_true h
  · exact ((claim1_fan_decision _).2 rfl).1

/-- Claim C2: whenever the computed voltage ratio has absolute value below
1.01, `read_resistance` returns the positive-infinity sentinel and never a
finite value; for a finite ratio of magnitude at least 1.01 it returns
`known_resistance / (Vref/V - 1)`. -/
theorem claim2_read_resistance :
    (∀ rv v kr : Flt, ((rv.div v).abs).lt (Flt.fin (101 / 100)) = true →
      read_resistance rv v kr = Flt.inf ∧ ∀ q : ℚ, read_resistance rv v kr ≠ Flt.fin q) ∧
    (∀ rv v kr : ℚ, v ≠ 0 → |rv / v| < 101 / 100 →
      read_resistance (Flt.fin rv) (Flt.fin v) (Flt.fin kr) = Flt.inf) ∧
    (∀ rv v kr : ℚ, v ≠ 0 → 101 / 100 ≤ |rv / v| →
      read_resistance (Flt.fin rv) (Flt.fin v) (Flt.fin kr) =
        Flt.fin (kr / (rv / v - 1))) := by
  refine ⟨?_, ?_, ?_⟩
  · intro rv v kr h
    have : read_resistance rv v kr = Flt.inf := by
      simp [read_resistance, h]
    exact ⟨this, by simp [this]⟩
  · intro rv v kr hv h
    simp [read_resistance, Flt.div, hv, Flt.abs, Flt.lt, h]
  · intro rv v kr hv h
    have hne : rv / v - 1 ≠ 0 := by
      intro hc
      have : rv / v = 1 := by linarith
      rw [this] at h
      norm_num at h
    simp [read_resistance, Flt.div, hv, Flt.abs, Flt.lt, not_lt.mpr h, Flt.sub, hne]

/-- Witness for C2: a unit ratio yields the infinite sentinel; the ratio
3/2 yields the finite divider formula value. -/
theorem claim2_read_resistance_witness :
    read_resistance (Flt.fin 1) (Flt.fin 1) (Flt.fin 9940) = Flt.inf ∧
    read_resistance (Flt.fin 3) (Flt.fin 2) (Flt.fin 9940) =
      Flt.fin (9940 / (3 / 2 - 1)) := by
  constructor
  · exact claim2_read_resistance.2.1 1 1 9940 (by norm_num)
      (by rw [abs_of_nonneg (by norm_num : (0 : ℚ) ≤ 1 / 1)]; norm_num)
  · exact claim2_read_resistance.2.2 3 2 9940 (by norm_num)
      (by rw [abs_of_nonneg (by norm_num : (0 : ℚ) ≤ 3 / 2)]; norm_num)

/-- Claim C4: the brew state machine follows the four-state transition
table (lever up sends START/RUNNING to RUNNING and STOP/STOPPED to START;
lever down sends START/RUNNING to STOP and STOP/STOPPED to STOPPED),
independently of the button inputs, and the input sequence
[up, up, down, down, up] from STOPPED yields the trace
[START, RUNNING, STOP, STOPPED, START]. -/
theorem claim4_state_machine :
    (∀ (inc dec lever : Bool) (now : ℕ) (s : DeviceState),
      (update_machine_state inc dec lever now s).machine_state =
        next_machine_state lever s.machine_state) ∧
    (next_machine_state true MachineState.START = MachineState.RUNNING ∧
     next_machine_state false MachineState.START = MachineState.STOP ∧
     next_machine_state true MachineState.RUNNING = MachineState.RUNNING ∧
     next_machine_state false MachineState.RUNNING = MachineState.STOP ∧
     next_machine_state true MachineState.STOP = MachineState.START ∧
     next_machine_state false MachineState.STOP = MachineState.STOPPED ∧
     next_machine_state true MachineState.STOPPED = MachineState.START ∧
     next_machine_state false MachineState.STOPPED = MachineState.STOPPED) ∧
    run_trace MachineState.STOPPED [true, true, false, false, true] =
      [MachineState.START, MachineState.RUNNING, MachineState.STOP,
       MachineState.STOPPED, MachineState.START] := by
  refine ⟨?_, by decide, by decide⟩
  intro inc dec lever now s
  obtain ⟨ms, li, bb, gb, cb, cg, tg, st, el, lr, ld, lc⟩ := s
  cases inc <;> cases dec <;> cases lever <;> cases ms <;> rfl

/-- Claim C8: the telemetry record built each sensing tick consists of
exactly six fields in declared order — elapsed time, both raw resistances
and both derived temperatures as 4-byte floats, then the machine state
widened by the `long(...)` cast to a 4-byte integer whose value is the
enum ordinal (which fits a 4-byte signed integer on every platform). -/
theorem claim8_telemetry_layout (logf : Flt → Flt) (s : DeviceState) :
    (write_measurement logf s).serialized =
      [TelemetryField.f32 s.elapsed_time,
       TelemetryField.f32 (s.basket_resistance_buffer s.latest_buffer_index),
       TelemetryField.f32 (s.group_resistance_buffer s.latest_buffer_index),
       TelemetryField.f32 (basket_resistance_to_temperature logf
         (s.basket_resistance_buffer s.latest_buffer_index)),
       TelemetryField.f32 (group_resistance_to_temperature logf
         (s.group_resistance_buffer s.latest_buffer_index)),
       TelemetryField.i32 (machineStateCode s.machine_state)] ∧
    (write_measurement logf s).serialized.length = 6 ∧
    ((write_measurement logf s).serialized.map TelemetryField.width) = [4, 4, 4, 4, 4, 4] ∧
    (((write_measurement logf s).serialized.map TelemetryField.width).sum = 24) ∧
    (0 ≤ machineStateCode s.machine_state ∧ machineStateCode s.machine_state < 2 ^ 31) := by
  refine ⟨rfl, rfl, rfl, rfl, ?_⟩
  cases s.machine_state <;> simp [machineStateCode]

/-- Claim C10: the telemetry record's resistance fields are the raw buffer
samples at `latest_buffer_index`, and its temperature fields are the
conversions of those single raw samples — not the smoothed
`current_*_temperature` scalars held in the device state, from which they
can differ. -/
theorem claim10_record_uses_latest_raw_sample (logf : Flt → Flt) (s : DeviceState) :
    (write_measurement logf s).basket_resistance =
      s.basket_resistance_buffer s.latest_buffer_index ∧
    (write_measurement logf s).group_resistance =
      s.group_resistance_buffer s.latest_buffer_index ∧
    (write_measurement logf s).basket_temperature =
      basket_resistance_to_temperature logf (s.basket_resistance_buffer s.latest_buffer_index) ∧
    (write_measurement logf s).group_temperature =
      group_resistance_to_temperature logf (s.group_resistance_buffer s.latest_buffer_index) ∧
    (∃ (logf2 : Flt → Flt) (s2 : DeviceState),
      (write_measurement logf2 s2).basket_temperature ≠ s2.current_basket_temperature ∧
      (write_measurement logf2 s2).group_temperature ≠ s2.current_group_temperature) := by
  refine ⟨rfl, rfl, rfl, rfl, fun _ => Flt.nan, baseState, ?_, ?_⟩ <;>
    simp [write_measurement, baseState, basket_resistance_to_temperature,
      group_resistance_to_temperature, resistance_to_temperature, fltCube, Flt.mul,
      Flt.add, Flt.div, Flt.sub]

theorem update_machine_state_target (inc dec lever : Bool) (now : ℕ) (s : DeviceState) :
    (update_machine_state inc dec lever now s).target_group_temperature =
      if inc then
        Flt.minA (s.target_group_temperature.add (Flt.fin TARGET_TEMPERATURE_INCREMENT))
          (Flt.fin TARGET_TEMPERATURE_MAX)
      else if dec then
        Flt.maxA (s.target_group_temperature.sub (Flt.fin TARGET_TEMPERATURE_INCREMENT))
          (Flt.fin TARGET_TEMPERATURE_MIN)
      else s.target_group_temperature := by
  cases inc <;> cases dec <;> rfl

theorem Flt.add_fin (a b : ℚ) : (Flt.fin a).add (Flt.fin b) = Flt.fin (a + b) := rfl

theorem Flt.sub_fin (a b : ℚ) : (Flt.fin a).sub (Flt.fin b) = Flt.fin (a - b) := rfl

theorem Flt.minA_fin (a b : ℚ) : Flt.minA (Flt.fin a) (Flt.fin b) = Flt.fin (min a b) := by
  by_cases h : a < b
  · simp [Flt.minA, Flt.lt, h, min_eq_left h.le]
  · simp [Flt.minA, Flt.lt, h, min_eq_right (not_lt.mp h)]

theorem Flt.maxA_fin (a b : ℚ) : Flt.maxA (Flt.fin a) (Flt.fin b) = Flt.fin (max a b) := by
  by_cases h : b < a
  · simp [Flt.maxA, Flt.gt, Flt.lt, h, max_eq_left h.le]
  · simp [Flt.maxA, Flt.gt, Flt.lt, h, max_eq_right (not_lt.mp h)]

/-- Claim C6: the stored target group temperature stays within
[TARGET_TEMPERATURE_MIN, TARGET_TEMPERATURE_MAX] and 0.5°-quantized:
the increment/decrement button handling preserves the invariant and
initialization establishes it. -/
theorem claim6_target_invariant :
    (∀ (inc dec lever : Bool) (now : ℕ) (s : DeviceState),
      target_ok s.target_group_temperature →
      target_ok (update_machine_state inc dec lever now s).target_group_temperature) ∧
    (∀ (logf : Flt → Flt) (basket_resistance group_resistance : Flt) (now : ℕ),
      target_ok (initialize_state logf basket_resistance group_resistance
        now).target_group_temperature) := by
  constructor
  · rintro inc dec lever now s ⟨k, hk, hmin, hmax⟩
    rw [update_machine_state_target, hk]
    cases inc with
    | true =>
      rw [Flt.add_fin, Flt.minA_fin, if_pos rfl]
      rcases le_or_lt ((k : ℚ) / 2 + TARGET_TEMPERATURE_INCREMENT) TARGET_TEMPERATURE_MAX
        with hle | hgt
      · rw [min_eq_left hle]
        refine ⟨k + 1, congrArg Flt.fin ?_, ?_, ?_⟩
        · rw [TARGET_TEMPERATURE_INCREMENT]; push_cast; ring
        · rw [TARGET_TEMPERATURE_INCREMENT] at hle
          push_cast
          linarith
        · rw [TARGET_TEMPERATURE_INCREMENT] at hle
          push_cast
          linarith
      · rw [min_eq_right hgt.le]
        exact ⟨196, congrArg Flt.fin (by rw [TARGET_TEMPERATURE_MAX]; norm_num),
          by rw [TARGET_TEMPERATURE_MIN]; norm_num,
          by rw [TARGET_TEMPERATURE_MAX]; norm_num⟩
    | false =>
      cases dec with
      | true =>
        rw [if_neg (by simp), if_pos rfl, Flt.sub_fin, Flt.maxA_fin]
        rcases le_or_lt TARGET_TEMPERATURE_MIN ((k : ℚ) / 2 - TARGET_TEMPERATURE_INCREMENT)
          with hle | hgt
        · rw [max_eq_left hle]
          refine ⟨k - 1, congrArg Flt.fin ?_, ?_, ?_⟩
          · rw [TARGET_TEMPERATURE_INCREMENT]; push_cast; ring
          · rw [TARGET_TEMPERATURE_INCREMENT] at hle
            push_cast
            linarith
          · rw [TARGET_TEMPERATURE_INCREMENT] at hle
            push_cast
            linarith
        · rw [max_eq_right hgt.le]
          exact ⟨176, congrArg Flt.fin (by rw [TARGET_TEMPERATURE_MIN]; norm_num),
            by rw [TARGET_TEMPERATURE_MIN]; norm_num,
            by rw [TARGET_TEMPERATURE_MAX]; norm_num⟩
      | false =>
        rw [if_neg (by simp), if_neg (by simp)]
        exact ⟨k, rfl, hmin, hmax⟩
  · intro logf br gr now
    exact ⟨186, congrArg Flt.fin (by norm_num),
      by rw [TARGET_TEMPERATURE_MIN]; norm_num,
      by rw [TARGET_TEMPERATURE_MAX]; norm_num⟩

/-- Witness for C6: pressing the increment button on a device whose target
is the in-range quantized value 93.0 leaves the invariant intact. -/
theorem claim6_target_invariant_witness :
    target_ok ((update_machine_state true false false 0
      baseState).target_group_temperature) :=
  claim6_target_invariant.1 true false false 0 baseState
    ⟨186, congrArg Flt.fin (by norm_num),
      by rw [TARGET_TEMPERATURE_MIN]; norm_num,
      by rw [TARGET_TEMPERATURE_MAX]; norm_num⟩

theorem usub32_self (a : ℕ) : usub32 a a = 0 := by
  unfold usub32
  omega

theorem update_machine_state_machine (inc dec lever : Bool) (now : ℕ) (s : DeviceState) :
    (update_machine_state inc dec lever now s).machine_state =
      next_machine_state lever s.machine_state := by
  obtain ⟨ms, li, bb, gb, cb, cg, tg, st, el, lr, ld, lc⟩ := s
  cases inc <;> cases dec <;> cases lever <;> cases ms <;> rfl

theorem update_machine_state_timer_fields (inc dec lever : Bool) (now : ℕ) (s : DeviceState) :
    (update_machine_state inc dec lever now s).elapsed_time = s.elapsed_time ∧
    (update_machine_state inc dec lever now s).start_time = s.start_time := by
  cases inc <;> cases dec <;> exact ⟨rfl, rfl⟩

theorem update_timer_start (now : ℕ) (s : DeviceState)
    (h : s.machine_state = MachineState.START) :
    (update_timer now s).elapsed_time = Flt.fin 0 ∧ (update_timer now s).start_time = now := by
  simp [update_timer, h, usub32_self]

theorem update_timer_stopped (now : ℕ) (s : DeviceState)
    (h : s.machine_state = MachineState.STOPPED) : update_timer now s = s := by
  simp [update_timer, h]

theorem device_tick_stopped (inc dec : Bool) (now : ℕ) (s : DeviceState)
    (h : s.machine_state = MachineState.STOPPED) :
    (device_tick inc dec false now s).machine_state = MachineState.STOPPED ∧
    (device_tick inc dec false now s).elapsed_time = s.elapsed_time := by
  have hm : (update_machine_state inc dec false now s).machine_state =
      MachineState.STOPPED := by
    rw [update_machine_state_machine, h]
    rfl
  unfold device_tick
  rw [update_timer_stopped now _ hm]
  exact ⟨hm, (update_machine_state_timer_fields inc dec false now s).1⟩

/-- Claim C5 (amended): `elapsed_time` resets to 0 (with `start_time` set
to the current time) on every transition into START — which occurs from
STOPPED and also from STOP with the lever up; it is recomputed as the
32-bit difference `now - start_time` scaled to seconds on every tick while
the state is in {START, RUNNING, STOP}; and it is frozen, across any
number of ticks, while the machine stays STOPPED. -/
theorem claim5_timer :
    (∀ (now : ℕ) (s : DeviceState), s.machine_state = MachineState.START →
      (update_timer now s).elapsed_time = Flt.fin 0 ∧
      (update_timer now s).start_time = now) ∧
    (∀ (now : ℕ) (s : DeviceState),
      s.machine_state = MachineState.RUNNING ∨ s.machine_state = MachineState.STOP →
      (update_timer now s).elapsed_time =
        Flt.fin ((usub32 now s.start_time : ℚ) / 1000) ∧
      (update_timer now s).start_time = s.start_time) ∧
    (∀ (now : ℕ) (s : DeviceState), s.machine_state = MachineState.STOPPED →
      update_timer now s = s) ∧
    (∀ (ticks : List (Bool × Bool × Bool × ℕ)) (s : DeviceState),
      s.machine_state = MachineState.STOPPED →
      (∀ t ∈ ticks, t.2.2.1 = false) →
      (run_ticks ticks s).machine_state = MachineState.STOPPED ∧
      (run_ticks ticks s).elapsed_time = s.elapsed_time) ∧
    (∀ (inc dec : Bool) (now : ℕ) (s : DeviceState),
      s.machine_state = MachineState.STOPPED ∨ s.machine_state = MachineState.STOP →
      (device_tick inc dec true now s).machine_state = MachineState.START ∧
      (device_tick inc dec true now s).elapsed_time = Flt.fin 0) := by
  refine ⟨update_timer_start, ?_, update_timer_stopped, ?_, ?_⟩
  · intro now s h
    have hne : s.machine_state ≠ MachineState.START := by
      rcases h with h | h <;> rw [h] <;> intro hc <;> cases hc
    have hns : s.machine_state ≠ MachineState.STOPPED := by
      rcases h with h | h <;> rw [h] <;> intro hc <;> cases hc
    simp [update_timer, hne, hns]
  · intro ticks
    induction ticks with
    | nil => exact fun s h _ => ⟨h, rfl⟩
    | cons t rest ih =>
      intro s h hlever
      obtain ⟨inc, dec, lever, now⟩ := t
      have hl : lever = false := hlever _ (List.mem_cons_self _ _)
      subst hl
      have step := device_tick_stopped inc dec now s h
      have tail := ih (device_tick inc dec false now s) step.1
        (fun x hx => hlever x (List.mem_cons_of_mem _ hx))
      exact ⟨tail.1, by rw [show run_ticks ((inc, dec, false, now) :: rest) s =
        run_ticks rest (device_tick inc dec false now s) from rfl, tail.2, step.2]⟩
  · intro inc dec now s h
    have hm : (update_machine_state inc dec true now s).machine_state =
        MachineState.START := by
      rw [update_machine_state_machine]
      rcases h with h | h <;> rw [h] <;> rfl
    have hreset := update_timer_start now (update_machine_state inc dec true now s) hm
    have hms : (device_tick inc dec true now s).machine_state = MachineState.START := by
      unfold device_tick
      simp [update_timer, hm]
    exact ⟨hms, hreset.1⟩

/-- A device state mid-shot in STOP with a nonzero recorded time, used to
exhibit that the timer also resets on a STOP → START transition. -/
def stopState : DeviceState :=
  { baseState with machine_state := MachineState.STOP, elapsed_time := Flt.fin 5 }

/-- Counterexample to C5 as stated: the timer does not reset *exactly* on
STOPPED→START transitions — from STOP (not STOPPED), raising the lever
enters START and also resets `elapsed_time` to 0. -/
theorem claim5_counterexample :
    stopState.machine_state = MachineState.STOP ∧
    stopState.machine_state ≠ MachineState.STOPPED ∧
    stopState.elapsed_time = Flt.fin 5 ∧
    (device_tick false false true 4000 stopState).machine_state = MachineState.START ∧
    (device_tick false false true 4000 stopState).elapsed_time = Flt.fin 0 := by
  refine ⟨rfl, by decide, rfl, ?_, ?_⟩
  · rw [show (device_tick false false true 4000 stopState).machine_state =
      (update_timer 4000 (update_machine_state false false true 4000
        stopState)).machine_state from rfl]
    simp [update_timer, update_machine_state_machine, stopState, baseState,
      next_machine_state]
  · have hm : (update_machine_state false false true 4000 stopState).machine_state =
        MachineState.START := by
      rw [update_machine_state_machine]
      rfl
    unfold device_tick
    simp [update_timer, hm, usub32_self]

/-- A device state captured mid-shot while RUNNING. -/
def runningState : DeviceState :=
  { baseState with machine_state := MachineState.RUNNING, start_time := 2 }

/-- Witness for C5: recomputation while RUNNING, freezing on a single
STOPPED tick and across two STOPPED ticks, at concrete inputs. -/
theorem claim5_timer_witness :
    (update_timer 7 runningState).elapsed_time = Flt.fin ((usub32 7 2 : ℚ) / 1000) ∧
    update_timer 7 baseState = baseState ∧
    (run_ticks [(false, false, false, 5), (false, false, false, 9)]
      baseState).elapsed_time = baseState.elapsed_time := by
  refine ⟨?_, ?_, ?_⟩
  · exact (claim5_timer.2.1 7 _ (Or.inl rfl)).1
  · exact claim5_timer.2.2.1 7 baseState rfl
  · exact (claim5_timer.2.2.2.1 _ baseState rfl (by decide)).2

/-- Claim C7 (amended): the continuous-variant `read_target_temperature`
linearly maps the raw analog range [0, 1023] to the integer range
[180, 200] and divides by 2, so every value it returns is a 0.5°-quantized
Celsius value within [90, 100] — not the `[MIN*2, MAX*2] = [176, 196]`
range (values within `[TARGET_TEMPERATURE_MIN, TARGET_TEMPERATURE_MAX]`)
that the claim states. -/
theorem claim7_target_map (raw : ℤ) (h0 : 0 ≤ raw) (h1 : raw ≤ 1023) :
    ∃ n : ℤ, read_target_temperature raw = Flt.fin ((n : ℚ) / 2) ∧
      180 ≤ n ∧ n ≤ 200 := by
  lift raw to ℕ using h0 with m
  have hm : m ≤ 1023 := by exact_mod_cast h1
  refine ⟨((m * 20 / 1023 + 180 : ℕ) : ℤ), rfl, ?_, ?_⟩
  · have : 180 ≤ m * 20 / 1023 + 180 := by omega
    exact_mod_cast this
  · have : m * 20 / 1023 + 180 ≤ 200 := by omega
    exact_mod_cast this

/-- Counterexample to C7 as stated: the raw endpoints map to 90.0 and
100.0, and 100.0 exceeds `TARGET_TEMPERATURE_MAX = 98.0`, so the mapping
range is not `[MIN*2, MAX*2]` and returned values are not confined to
`[MIN, MAX]`. -/
theorem claim7_counterexample :
    read_target_temperature 1023 = Flt.fin 100 ∧
    read_target_temperature 0 = Flt.fin 90 ∧
    ¬((100 : ℚ) ≤ TARGET_TEMPERATURE_MAX) := by
  have e1 : arduinoMap 1023 0 1023 180 200 = 200 := by decide
  have e2 : arduinoMap 0 0 1023 180 200 = 180 := by decide
  refine ⟨?_, ?_, by rw [TARGET_TEMPERATURE_MAX]; norm_num⟩
  · show Flt.fin ((arduinoMap 1023 0 1023 180 200 : ℚ) / 2) = Flt.fin 100
    rw [e1]
    exact congrArg Flt.fin (by norm_num)
  · show Flt.fin ((arduinoMap 0 0 1023 180 200 : ℚ) / 2) = Flt.fin 90
    rw [e2]
    exact congrArg Flt.fin (by norm_num)

/-- Witness for C7: the mid-scale raw reading 512 produces a quantized
value in the actual output range. -/
theorem claim7_target_map_witness :
    ∃ n : ℤ, read_target_temperature 512 = Flt.fin ((n : ℚ) / 2) ∧
      180 ≤ n ∧ n ≤ 200 :=
  claim7_target_map 512 (by norm_num) (by norm_num)

theorem natDigitsCore_length : ∀ (c fuel n : ℕ), n < fuel → n < 10 ^ c → 1 ≤ c →
    (natDigitsCore fuel n).length ≤ c := by
  intro c
  induction c with
  | zero => intro fuel n _ _ hc; omega
  | succ c ih =>
    intro fuel n hfuel hpow _
    cases fuel with
    | zero => omega
    | succ fuel =>
      rw [natDigitsCore]
      by_cases h10 : n < 10
      · rw [if_pos h10]
        simp
      · rw [if_neg h10]
        rw [List.length_append]
        have hc : 1 ≤ c := by
          by_contra hc
          have hc0 : c = 0 := by omega
          subst hc0
          rw [pow_one] at hpow
          omega
        have hdiv_fuel : n / 10 < fuel := by omega
        have hdiv_pow : n / 10 < 10 ^ c := by
          rw [Nat.div_lt_iff_lt_mul (by norm_num)]
          calc n < 10 ^ (c + 1) := hpow
          _ = 10 ^ c * 10 := by rw [pow_succ]
        have := ih fuel (n / 10) hdiv_fuel hdiv_pow hc
        simp only [List.length_cons, List.length_nil]
        omega

theorem natRepr_length (n c : ℕ) (h : n < 10 ^ c) (hc : 1 ≤ c) :
    (natRepr n).length ≤ c :=
  natDigitsCore_length c (n + 1) n (by omega) h hc

theorem intRepr_length (k : ℤ) (hlo : -999 ≤ k) (hhi : k ≤ 9999) :
    (intRepr k).length ≤ 4 := by
  unfold intRepr
  by_cases hk : k < 0
  · rw [if_pos hk]
    have habs : k.natAbs < 10 ^ 3 := by
      have : k.natAbs ≤ 999 := by omega
      omega
    have := natRepr_length k.natAbs 3 habs (by norm_num)
    simp only [List.length_cons]
    omega
  · rw [if_neg hk]
    have htn : k.toNat < 10 ^ 4 := by
      have : k.toNat ≤ 9999 := by omega
      omega
    exact natRepr_length k.toNat 4 htn (by norm_num)

theorem natRepr_lt10 (d : ℕ) (h : d < 10) : natRepr d = [digitChar d] := by
  rw [natRepr, natDigitsCore, if_pos h]

theorem pad3_length (l : List Char) : (pad3 l).length = max 3 l.length := by
  simp [pad3]
  omega

theorem snprintf7_of_le (l : List Char) (h : l.length ≤ 7) : snprintf7 l = String.mk l := by
  rw [snprintf7, List.take_of_length_le h]

theorem ratTrunc_bounds (q : ℚ) (hlo : -273 < q) (hhi : q < 16384 / 5) :
    -272 ≤ ratTrunc q ∧ ratTrunc q ≤ 3276 := by
  unfold ratTrunc
  by_cases h : 0 ≤ q
  · rw [if_pos h]
    constructor
    · have : (0 : ℤ) ≤ ⌊q⌋ := Int.floor_nonneg.mpr h
      omega
    · have : ⌊q⌋ < 3277 := by
        have := Int.floor_le q
        have hcast : (⌊q⌋ : ℚ) < 3277 :=
          lt_of_le_of_lt this (lt_of_lt_of_le hhi (by norm_num))
        exact_mod_cast hcast
      omega
  · rw [if_neg h]
    constructor
    · have hle : (-273 : ℚ) < (⌈q⌉ : ℚ) := lt_of_lt_of_le hlo (Int.le_ceil q)
      have : (-273 : ℤ) < ⌈q⌉ := by exact_mod_cast hle
      omega
    · have : ⌈q⌉ ≤ (0 : ℤ) := Int.ceil_le.mpr (by exact_mod_cast le_of_not_le h)
      omega

theorem format_temperature_fin (q : ℚ) (h : (-273 : ℚ) < q) :
    format_temperature (Flt.fin q) = format_numeric q := by
  have hgt : (Flt.fin q).gt (Flt.fin (-273)) = true := by
    simp [Flt.gt, Flt.lt]
    linarith
  simp [format_temperature, hgt]

/-- Claim C9 (amended): `format_temperature` produces the sentinel string
"--- C" for every temperature that is NaN, negative infinity, or at or
below the −273 floor; for every finite temperature strictly between −273
and 3276.8 it produces the numeric form (integer part right-justified in
3 columns, one decimal digit, suffixed with the unit letter C). At and
above 3276.8 the cast `int(abs(temperature) * 10)` overflows the
target's 2-byte `int` — undefined behaviour, so no numeric form is
produced. -/
theorem claim9_format_temperature :
    (format_temperature Flt.nan = some (String.mk ['-', '-', '-', ' ', 'C'])) ∧
    (format_temperature Flt.ninf = some (String.mk ['-', '-', '-', ' ', 'C'])) ∧
    (∀ q : ℚ, q ≤ -273 →
      format_temperature (Flt.fin q) = some (String.mk ['-', '-', '-', ' ', 'C'])) ∧
    (∀ q : ℚ, -273 < q → q < 16384 / 5 →
      format_temperature (Flt.fin q) = some (claimed_numeric_form q)) ∧
    (∀ q : ℚ, 16384 / 5 ≤ q → format_temperature (Flt.fin q) = none) := by
  refine ⟨by decide, by decide, ?_, ?_, ?_⟩
  · intro q h
    have hngt : (Flt.fin q).gt (Flt.fin (-273)) = false := by
      simp [Flt.gt, Flt.lt]
      linarith
    rw [format_temperature, hngt]
    rfl
  · intro q hlo hhi
    have htb := ratTrunc_bounds q hlo hhi
    have hc1 : intCast16 q = some (ratTrunc q) := by
      rw [intCast16, if_pos ⟨by omega, by omega⟩]
    have habs10 : (0 : ℚ) ≤ (|q|) * 10 := by positivity
    have habs_lt : (|q|) * 10 < 32768 := by
      rcases abs_cases q with ⟨heq, _⟩ | ⟨heq, _⟩ <;> rw [heq] <;> linarith
    have htr10 : ratTrunc ((|q|) * 10) = ⌊(|q|) * 10⌋ := by
      rw [ratTrunc, if_pos habs10]
    have h10_lo : (0 : ℤ) ≤ ⌊(|q|) * 10⌋ := Int.floor_nonneg.mpr habs10
    have h10_hi : ⌊(|q|) * 10⌋ ≤ 32767 := by
      have hcast : (⌊(|q|) * 10⌋ : ℚ) < 32768 :=
        lt_of_le_of_lt (Int.floor_le _) habs_lt
      have : ⌊(|q|) * 10⌋ < 32768 := by exact_mod_cast hcast
      omega
    have hc2 : intCast16 ((|q|) * 10) = some ⌊(|q|) * 10⌋ := by
      rw [intCast16, htr10, if_pos ⟨by omega, h10_hi⟩]
    rw [format_temperature_fin q hlo, format_numeric, hc1, hc2]
    show some (snprintf7 (pad3 (intRepr (ratTrunc q)) ++
      '.' :: natRepr ((⌊(|q|) * 10⌋).toNat % 10) ++ ['C'])) =
      some (claimed_numeric_form q)
    have hdig : (⌊(|q|) * 10⌋).toNat % 10 < 10 := Nat.mod_lt _ (by norm_num)
    have hir := intRepr_length (ratTrunc q) (by omega) (by omega)
    have hlen : (pad3 (intRepr (ratTrunc q)) ++
        '.' :: natRepr ((⌊(|q|) * 10⌋).toNat % 10) ++ ['C']).length ≤ 7 := by
      rw [List.length_append, List.length_append, pad3_length,
        natRepr_lt10 _ hdig]
      simp only [List.length_cons, List.length_nil]
      omega
    rw [snprintf7_of_le _ hlen, claimed_numeric_form]
  · intro q hq
    have hlo : (-273 : ℚ) < q := lt_of_lt_of_le (by norm_num) hq
    have habs : (|q|) = q := abs_of_nonneg (by linarith)
    have h32 : (32768 : ℚ) ≤ (|q|) * 10 := by
      rw [habs]
      linarith
    have hfl : (32768 : ℤ) ≤ ⌊(|q|) * 10⌋ := Int.le_floor.mpr (by exact_mod_cast h32)
    have htr10 : ratTrunc ((|q|) * 10) = ⌊(|q|) * 10⌋ := by
      rw [ratTrunc, if_pos (by positivity)]
    have hc2 : intCast16 ((|q|) * 10) = none := by
      rw [intCast16, if_neg (by rw [htr10]; omega)]
    rw [format_temperature_fin q hlo, format_numeric, hc2]
    rcases intCast16 q with _ | i <;> rfl

/-- Counterexample to C9 as stated: at 5000.0 (a temperature above the
floor) the cast `int(abs(temperature) * 10)` = `int(50000.0)` overflows
the target's 2-byte `int`, so the program has no defined output there —
in particular it does not produce the claimed numeric form. -/
theorem claim9_counterexample :
    (-273 : ℚ) < 5000 ∧
    format_temperature (Flt.fin 5000) = none ∧
    format_temperature (Flt.fin 5000) ≠ some (claimed_numeric_form 5000) := by
  have habs : (|(5000 : ℚ)|) = 5000 := abs_of_nonneg (by norm_num)
  have htr : ratTrunc ((|(5000 : ℚ)|) * 10) = 50000 := by
    rw [ratTrunc, if_pos (by positivity), habs]
    rw [show (5000 : ℚ) * 10 = ((50000 : ℤ) : ℚ) by norm_num, Int.floor_intCast]
  have hc2 : intCast16 ((|(5000 : ℚ)|) * 10) = none := by
    rw [intCast16, if_neg (by rw [htr]; omega)]
  have hnone : format_temperature (Flt.fin 5000) = none := by
    rw [format_temperature_fin 5000 (by norm_num), format_numeric, hc2]
    rcases intCast16 (5000 : ℚ) with _ | i <;> rfl
  refine ⟨by norm_num, hnone, ?_⟩
  rw [hnone]
  intro hcon
  cases hcon

/-- Witness for C9: the in-range finite temperature 95.5 renders in the
numeric form, −300 (below the physical floor) renders as the sentinel,
and 5000.0 hits the 2-byte `int` overflow (undefined behaviour). -/
theorem claim9_format_temperature_witness :
    format_temperature (Flt.fin (191 / 2)) = some (claimed_numeric_form (191 / 2)) ∧
    format_temperature (Flt.fin (-300)) = some (String.mk ['-', '-', '-', ' ', 'C']) ∧
    format_temperature (Flt.fin 5000) = none :=
  ⟨claim9_format_temperature.2.2.2.1 (191 / 2) (by norm_num) (by norm_num),
   claim9_format_temperature.2.2.1 (-300) (by norm_num),
   claim9_format_temperature.2.2.2.2 5000 (by norm_num)⟩

theorem Flt.add_fin_inf (c : ℚ) : (Flt.fin c).add Flt.inf = Flt.inf := rfl

theorem update_resistances_latest (logf : Flt → Flt) (bs gs : Flt) (s : DeviceState) :
    (update_resistances logf bs gs s).latest_buffer_index = next_index s := rfl

theorem update_resistances_group_buffer (logf : Flt → Flt) (bs gs : Flt) (s : DeviceState) :
    (update_resistances logf bs gs s).group_resistance_buffer =
      fun j => if j = next_index s then gs else s.group_resistance_buffer j := rfl

theorem update_resistances_basket_buffer (logf : Flt → Flt) (bs gs : Flt) (s : DeviceState) :
    (update_resistances logf bs gs s).basket_resistance_buffer =
      fun j => if j = next_index s then bs else s.basket_resistance_buffer j := rfl

theorem run_updates_add (logf : Flt → Flt) (bs gs : Flt) :
    ∀ (a b : ℕ) (s : DeviceState),
      run_updates logf bs gs (a + b) s =
        run_updates logf bs gs b (run_updates logf bs gs a s) := by
  intro a
  induction a with
  | zero =>
    intro b s
    rw [Nat.zero_add]
    rfl
  | succ a ih =>
    intro b s
    rw [Nat.succ_add]
    exact ih b (update_resistances logf bs gs s)

theorem run_updates_latest (logf : Flt → Flt) (bs gs : Flt) :
    ∀ (n : ℕ) (s : DeviceState),
      (run_updates logf bs gs n s).latest_buffer_index.val =
        (s.latest_buffer_index.val + n) % BUFFER_SIZE := by
  intro n
  induction n with
  | zero =>
    intro s
    show s.latest_buffer_index.val = (s.latest_buffer_index.val + 0) % BUFFER_SIZE
    have := s.latest_buffer_index.isLt
    simp only [BUFFER_SIZE] at *
    omega
  | succ n ih =>
    intro s
    have step : (run_updates logf bs gs (n + 1) s).latest_buffer_index.val =
        ((update_resistances logf bs gs s).latest_buffer_index.val + n) % BUFFER_SIZE :=
      ih (update_resistances logf bs gs s)
    rw [step, update_resistances_latest]
    show ((s.latest_buffer_index.val + 1) % BUFFER_SIZE + n) % BUFFER_SIZE =
      (s.latest_buffer_index.val + (n + 1)) % BUFFER_SIZE
    simp only [BUFFER_SIZE]
    omega

theorem run_updates_persist_group (logf : Flt → Flt) (bs gs : Flt) :
    ∀ (n : ℕ) (s : DeviceState) (j : Fin BUFFER_SIZE),
      s.group_resistance_buffer j = gs →
      (run_updates logf bs gs n s).group_resistance_buffer j = gs := by
  intro n
  induction n with
  | zero => exact fun s j h => h
  | succ n ih =>
    intro s j h
    apply ih
    rw [update_resistances_group_buffer]
    dsimp only
    by_cases hj : j = next_index s
    · rw [if_pos hj]
    · rw [if_neg hj]
      exact h

theorem run_updates_persist_basket (logf : Flt → Flt) (bs gs : Flt) :
    ∀ (n : ℕ) (s : DeviceState) (j : Fin BUFFER_SIZE),
      s.basket_resistance_buffer j = bs →
      (run_updates logf bs gs n s).basket_resistance_buffer j = bs := by
  intro n
  induction n with
  | zero => exact fun s j h => h
  | succ n ih =>
    intro s j h
    apply ih
    rw [update_resistances_basket_buffer]
    dsimp only
    by_cases hj : j = next_index s
    · rw [if_pos hj]
    · rw [if_neg hj]
      exact h

theorem run_updates_cover (logf : Flt → Flt) (bs gs : Flt) (s : DeviceState)
    (j : Fin BUFFER_SIZE) :
    (run_updates logf bs gs BUFFER_SIZE s).basket_resistance_buffer j = bs ∧
    (run_updates logf bs gs BUFFER_SIZE s).group_resistance_buffer j = gs := by
  have hlt : s.latest_buffer_index.val < 100 := s.latest_buffer_index.isLt
  have hj : j.val < 100 := j.isLt
  set m : ℕ := (j.val + 100 - (s.latest_buffer_index.val + 1) % 100) % 100 with hm
  have hm100 : m < 100 := Nat.mod_lt _ (by norm_num)
  have hsplit : run_updates logf bs gs BUFFER_SIZE s =
      run_updates logf bs gs (100 - m - 1)
        (update_resistances logf bs gs (run_updates logf bs gs m s)) := by
    have h1 : run_updates logf bs gs BUFFER_SIZE s =
        run_updates logf bs gs (1 + (100 - m - 1)) (run_updates logf bs gs m s) := by
      rw [← run_updates_add]
      congr 1
      simp only [BUFFER_SIZE]
      omega
    rw [h1, run_updates_add]
    rfl
  have hidx : next_index (run_updates logf bs gs m s) = j := by
    apply Fin.ext
    show ((run_updates logf bs gs m s).latest_buffer_index.val + 1) % BUFFER_SIZE = j.val
    rw [run_updates_latest]
    simp only [BUFFER_SIZE] at *
    omega
  rw [hsplit]
  constructor
  · apply run_updates_persist_basket
    rw [update_resistances_basket_buffer]
    dsimp only
    rw [hidx, if_pos rfl]
  · apply run_updates_persist_group
    rw [update_resistances_group_buffer]
    dsimp only
    rw [hidx, if_pos rfl]

theorem foldl_add_const (buf : Fin BUFFER_SIZE → Flt) (x : ℚ) :
    ∀ (l : List (Fin BUFFER_SIZE)) (c : ℚ), (∀ j ∈ l, buf j = Flt.fin x) →
      l.foldl (fun acc j => acc.add (buf j)) (Flt.fin c) =
        Flt.fin (c + (l.length : ℚ) * x) := by
  intro l
  induction l with
  | nil =>
    intro c _
    simp
  | cons a t ih =>
    intro c h
    have ha : buf a = Flt.fin x := h a (List.mem_cons_self a t)
    show List.foldl _ ((Flt.fin c).add (buf a)) t = _
    rw [ha, Flt.add_fin, ih (c + x) (fun j hj => h j (List.mem_cons_of_mem _ hj))]
    congr 1
    push_cast [List.length_cons]
    ring

theorem foldl_add_inf_acc (buf : Fin BUFFER_SIZE → Flt) :
    ∀ (l : List (Fin BUFFER_SIZE)),
      (∀ j ∈ l, buf j ≠ Flt.nan ∧ buf j ≠ Flt.ninf) →
      l.foldl (fun acc j => acc.add (buf j)) Flt.inf = Flt.inf := by
  intro l
  induction l with
  | nil => intro _; rfl
  | cons a t ih =>
    intro h
    have ha := h a (List.mem_cons_self a t)
    show List.foldl _ (Flt.inf.add (buf a)) t = Flt.inf
    have hstep : Flt.inf.add (buf a) = Flt.inf := by
      cases hba : buf a with
      | fin y => rfl
      | inf => rfl
      | ninf => exact absurd hba ha.2
      | nan => exact absurd hba ha.1
    rw [hstep]
    exact ih (fun j hj => h j (List.mem_cons_of_mem _ hj))

theorem isFinite_fin (f : Flt) (h : f.isFinite = true) : ∃ y : ℚ, f = Flt.fin y := by
  cases f with
  | fin y => exact ⟨y, rfl⟩
  | inf => cases h
  | ninf => cases h
  | nan => cases h

theorem foldl_add_with_inf (buf : Fin BUFFER_SIZE → Flt) :
    ∀ (l : List (Fin BUFFER_SIZE)) (c : ℚ) (j0 : Fin BUFFER_SIZE),
      j0 ∈ l → buf j0 = Flt.inf →
      (∀ j ∈ l, j ≠ j0 → (buf j).isFinite = true) →
      l.foldl (fun acc j => acc.add (buf j)) (Flt.fin c) = Flt.inf := by
  intro l
  induction l with
  | nil =>
    intro c j0 hmem
    cases hmem
  | cons a t ih =>
    intro c j0 hmem hj0 hfin
    by_cases ha : a = j0
    · subst ha
      show List.foldl _ ((Flt.fin c).add (buf a)) t = Flt.inf
      rw [hj0, Flt.add_fin_inf]
      apply foldl_add_inf_acc
      intro j hj
      by_cases hja : j = a
      · rw [hja, hj0]
        exact ⟨fun h => Flt.noConfusion h, fun h => Flt.noConfusion h⟩
      · obtain ⟨y, hy⟩ := isFinite_fin _ (hfin j (List.mem_cons_of_mem _ hj) hja)
        rw [hy]
        exact ⟨fun h => Flt.noConfusion h, fun h => Flt.noConfusion h⟩
    · have hfa : (buf a).isFinite = true :=
        hfin a (List.mem_cons_self a t) ha
      obtain ⟨y, hy⟩ := isFinite_fin _ hfa
      have hmem' : j0 ∈ t := by
        rcases List.mem_cons.mp hmem with h | h
        · exact absurd h.symm ha
        · exact h
      show List.foldl _ ((Flt.fin c).add (buf a)) t = Flt.inf
      rw [hy, Flt.add_fin]
      exact ih (c + y) j0 hmem' hj0
        (fun j hj hne => hfin j (List.mem_cons_of_mem _ hj) hne)

theorem foldl_add_all_fin (buf : Fin BUFFER_SIZE → Flt) :
    ∀ (l : List (Fin BUFFER_SIZE)) (c : ℚ),
      (∀ j ∈ l, (buf j).isFinite = true) →
      ∃ y : ℚ, l.foldl (fun acc j => acc.add (buf j)) (Flt.fin c) = Flt.fin y := by
  intro l
  induction l with
  | nil => exact fun c _ => ⟨c, rfl⟩
  | cons a t ih =>
    intro c h
    obtain ⟨y, hy⟩ := isFinite_fin _ (h a (List.mem_cons_self a t))
    show ∃ z, List.foldl _ ((Flt.fin c).add (buf a)) t = Flt.fin z
    rw [hy, Flt.add_fin]
    exact ih (c + y) (fun j hj => h j (List.mem_cons_of_mem _ hj))

theorem buffer_average_const (buf : Fin BUFFER_SIZE → Flt) (x : ℚ)
    (h : ∀ j, buf j = Flt.fin x) : buffer_average buf = Flt.fin x := by
  unfold buffer_average buffer_sum
  rw [foldl_add_const buf x _ 0 (fun j _ => h j)]
  have hlen : ((List.finRange BUFFER_SIZE).length : ℚ) = 100 := by
    simp [BUFFER_SIZE]
  rw [hlen]
  have h100 : ((BUFFER_SIZE : ℚ)) ≠ 0 := by
    simp [BUFFER_SIZE]
  show Flt.div _ _ = _
  rw [Flt.div.eq_def]
  simp only [h100, if_false]
  congr 1
  have : ((BUFFER_SIZE : ℕ) : ℚ) = 100 := by norm_num [BUFFER_SIZE]
  rw [this]
  field_simp

theorem buffer_average_inf (buf : Fin BUFFER_SIZE → Flt) (j0 : Fin BUFFER_SIZE)
    (hj0 : buf j0 = Flt.inf) (hfin : ∀ j, j ≠ j0 → (buf j).isFinite = true) :
    buffer_average buf = Flt.inf := by
  unfold buffer_average buffer_sum
  rw [foldl_add_with_inf buf _ 0 j0 (List.mem_finRange j0) hj0
    (fun j _ hne => hfin j hne)]
  show Flt.div Flt.inf _ = _
  rw [Flt.div.eq_def]
  have : (0 : ℚ) ≤ ((BUFFER_SIZE : ℕ) : ℚ) := by positivity
  simp [this]

theorem Flt.div_fin (a b : ℚ) (hb : b ≠ 0) :
    (Flt.fin a).div (Flt.fin b) = Flt.fin (a / b) := by
  rw [Flt.div.eq_def]
  simp [hb]

theorem buffer_average_all_fin (buf : Fin BUFFER_SIZE → Flt)
    (h : ∀ j, (buf j).isFinite = true) : (buffer_average buf).isFinite = true := by
  obtain ⟨y, hy⟩ := foldl_add_all_fin buf (List.finRange BUFFER_SIZE) 0 (fun j _ => h j)
  have h100 : ((BUFFER_SIZE : ℕ) : ℚ) ≠ 0 := by
    simp [BUFFER_SIZE]
  unfold buffer_average buffer_sum
  rw [hy, Flt.div_fin _ _ h100]
  rfl

/-- Claim C3: the smoothing average is recomputed from the entire buffer on
every push; after filling the buffer's capacity slots with a constant
sample x the buffer average equals x exactly; a buffer holding a single
infinite sample among finite ones has an infinite (contaminated) average;
a buffer of finite samples has a finite average; and once the slot that
holds the single infinite sample — the very slot the next push overwrites —
is rewritten with a fresh finite sample, the whole buffer and its average
are finite again. -/
theorem claim3_smoothing_buffer :
    (∀ (logf : Flt → Flt) (bs gs : Flt) (s : DeviceState),
      (update_resistances logf bs gs s).current_group_temperature =
        group_resistance_to_temperature logf
          (buffer_average ((update_resistances logf bs gs s).group_resistance_buffer)) ∧
      (update_resistances logf bs gs s).current_basket_temperature =
        basket_resistance_to_temperature logf
          (buffer_average ((update_resistances logf bs gs s).basket_resistance_buffer))) ∧
    (∀ (logf : Flt → Flt) (x : ℚ) (s : DeviceState),
      (∀ j : Fin BUFFER_SIZE,
        (run_updates logf (Flt.fin x) (Flt.fin x) BUFFER_SIZE
          s).group_resistance_buffer j = Flt.fin x) ∧
      buffer_average ((run_updates logf (Flt.fin x) (Flt.fin x) BUFFER_SIZE
        s).group_resistance_buffer) = Flt.fin x ∧
      buffer_average ((run_updates logf (Flt.fin x) (Flt.fin x) BUFFER_SIZE
        s).basket_resistance_buffer) = Flt.fin x) ∧
    (∀ (buf : Fin BUFFER_SIZE → Flt) (j0 : Fin BUFFER_SIZE),
      buf j0 = Flt.inf → (∀ j, j ≠ j0 → (buf j).isFinite = true) →
      buffer_average buf = Flt.inf) ∧
    (∀ buf : Fin BUFFER_SIZE → Flt,
      (∀ j, (buf j).isFinite = true) → (buffer_average buf).isFinite = true) ∧
    (∀ (logf : Flt → Flt) (s : DeviceState) (bq gq : ℚ),
      s.group_resistance_buffer (next_index s) = Flt.inf →
      (∀ j, j ≠ next_index s → (s.group_resistance_buffer j).isFinite = true) →
      (∀ j, ((update_resistances logf (Flt.fin bq) (Flt.fin gq)
        s).group_resistance_buffer j).isFinite = true) ∧
      (buffer_average ((update_resistances logf (Flt.fin bq) (Flt.fin gq)
        s).group_resistance_buffer)).isFinite = true) := by
  refine ⟨fun logf bs gs s => ⟨rfl, rfl⟩, ?_, buffer_average_inf, buffer_average_all_fin, ?_⟩
  · intro logf x s
    refine ⟨fun j => (run_updates_cover logf (Flt.fin x) (Flt.fin x) s j).2, ?_, ?_⟩
    · exact buffer_average_const _ x
        (fun j => (run_updates_cover logf (Flt.fin x) (Flt.fin x) s j).2)
    · exact buffer_average_const _ x
        (fun j => (run_updates_cover logf (Flt.fin x) (Flt.fin x) s j).1)
  · intro logf s bq gq hinf hfin
    have hall : ∀ j, ((update_resistances logf (Flt.fin bq) (Flt.fin gq)
        s).group_resistance_buffer j).isFinite = true := by
      intro j
      rw [update_resistances_group_buffer]
      dsimp only
      by_cases hj : j = next_index s
      · rw [if_pos hj]
        rfl
      · rw [if_neg hj]
        exact hfin j hj
    exact ⟨hall, buffer_average_all_fin _ hall⟩

/-- A group-resistance buffer contaminated by a single infinite sample in
slot 0 (the slot the next push overwrites), all other slots finite. -/
def contaminatedBuffer : Fin BUFFER_SIZE → Flt :=
  fun j => if j = next_index baseState then Flt.inf else Flt.fin 1

/-- A device state whose group buffer holds the contaminated buffer. -/
def contaminatedState : DeviceState :=
  { baseState with group_resistance_buffer := contaminatedBuffer }

/-- Witness for C3: the concrete contaminated buffer averages to the
infinite sentinel; an all-finite buffer has a finite average; and one
fresh finite push onto the contaminated state restores a finite average. -/
theorem claim3_smoothing_buffer_witness :
    buffer_average contaminatedBuffer = Flt.inf ∧
    (buffer_average (fun _ => Flt.fin 2)).isFinite = true ∧
    (buffer_average ((update_resistances (fun f => f) (Flt.fin 1) (Flt.fin 1)
      contaminatedState).group_resistance_buffer)).isFinite = true := by
  refine ⟨?_, ?_, ?_⟩
  · exact claim3_smoothing_buffer.2.2.1 contaminatedBuffer (next_index baseState)
      (by rw [contaminatedBuffer, if_pos rfl])
      (by decide)
  · exact claim3_smoothing_buffer.2.2.2.1 _ (fun _ => rfl)
  · exact (claim3_smoothing_buffer.2.2.2.2 (fun f => f) contaminatedState 1 1
      (by rw [show contaminatedState.group_resistance_buffer = contaminatedBuffer from rfl,
        show next_index contaminatedState = next_index baseState from rfl,
        contaminatedBuffer, if_pos rfl])
      (by decide)).2
